import Mathlib

/-!
Verification of kubetui's UI state machines against its specification.

The definitions below are shallow embeddings of the Rust sources:
 * `src/tui-wrapper/src/widget/table.rs` (table widget: selection and column widths)
 * `src/src/ui/window.rs` (window: tab activation, popup handling, input dispatch)
 * `src/src/tui_wrapper/widget/text2.rs` (grapheme wrapping and the line iterator)
 * `src/src/action.rs` (content updates for Kube responses)

Machine integers (usize/u16) are modelled as `Nat`; Rust's `saturating_sub` and
`Nat` subtraction coincide.  Rust strings are modelled as their grapheme-cluster
sequences, each grapheme abstracted to its display width (`unicode_width`) and
its UTF-8 byte count (`str::len`), the two measures the embedded code uses.
-/

namespace Kubetui

/-- One grapheme cluster of a Rust string, abstracted to its display width
(`UnicodeWidthStr::width`, 0..2 in practice) and its UTF-8 byte count. -/
structure Grapheme where
  width : Nat
  bytes : Nat
deriving DecidableEq, Repr

/-- A Rust `String`, as the sequence of its grapheme clusters. -/
abbrev RStr := List Grapheme

/-- Rust `UnicodeWidthStr::width` of a string: the sum of its graphemes' display widths. -/
def strWidth (s : RStr) : Nat := (s.map Grapheme.width).sum

/-- Rust `String::len` of a string: the sum of its graphemes' UTF-8 byte counts. -/
def strLen (s : RStr) : Nat := (s.map Grapheme.bytes).sum

/-! ## Table widget (`src/tui-wrapper/src/widget/table.rs`) -/

/-- Constant `COLUMN_SPACING` (table.rs line 26). -/
def COLUMN_SPACING : Nat := 3

/-- The state of `Table` that its selection and width logic touches:
`items`, `header`, `state.selected()` (a `TableState` holds an `Option<usize>`),
`row_width`, `digits` and `widths`.  The rendering caches (`rows`, `row_bounds`,
chunks, callbacks) do not feed back into this state and are omitted. -/
structure Table where
  items : List (List RStr)
  header : List RStr
  selected : Option Nat
  rowWidth : Nat
  digits : List Nat
  widths : List Nat
deriving DecidableEq, Repr

/-- The inner loop of `Table::set_widths` (table.rs lines 133-144) for one row:
`digits[i] = max(digits[i], row[i].len())` for each column of the row.
The source iterates the row and leaves `digits` untouched past the row's end;
for `i < digits.len()` this is exactly the `zipWith`/`drop` below.  (For a row
strictly longer than `digits` the source indexes out of bounds and panics; no
such ragged table is considered here.) -/
def updDigitsRow (digits : List Nat) (row : List RStr) : List Nat :=
  (List.zipWith (fun d c => max d (strLen c)) digits row) ++ digits.drop row.length

/-- The `digits` vector `Table::set_widths` computes before the overflow check:
seeded from the headers' display widths (or the first row's, without a header),
then raised per column to each row cell's byte length (table.rs lines 127-144). -/
def naturalDigits (t : Table) : List Nat :=
  let digits0 :=
    if t.header.isEmpty then t.items.headI.map strWidth else t.header.map strWidth
  t.items.foldl updDigitsRow digits0

/-- Function `Table::set_widths` (table.rs lines 122-167).  With no items it returns
unchanged; otherwise it computes the natural `digits`, and if their sum plus
inter-column spacing overflows `row_width`, it shrinks column 0 (saturating
at 0) so that the remaining columns keep their natural width. -/
def setWidths (t : Table) : Table :=
  if t.items.isEmpty then t
  else
    let digits := naturalDigits t
    if digits.sum + COLUMN_SPACING * (digits.length - 1) ≤ t.rowWidth then
      { t with digits := digits, widths := digits }
    else
      let d := digits.set 0
        (t.rowWidth - (COLUMN_SPACING * (digits.length - 1) + (digits.drop 1).sum))
      { t with digits := d, widths := d }

/-- Function `Table::set_items` (table.rs lines 274-290): re-validate the selection
against the new item count, then replace the items and recompute the widths
(`set_rows` only rebuilds the render cache and is omitted). -/
def setItems (t : Table) (items : List (List RStr)) : Table :=
  let sel : Option Nat :=
    if items.length = 0 then none
    else if items.length < t.items.length then some (items.length - 1)
    else if t.selected = none then some 0
    else t.selected
  setWidths { t with selected := sel, items := items }

/-- Function `Table::select_next` (table.rs lines 241-254). -/
def selectNext (t : Table) (index : Nat) : Table :=
  let i : Nat :=
    match t.selected with
    | some i => if t.items.length - 1 ≤ i + index then t.items.length - 1 else i + index
    | none => 0
  { t with selected := some i }

/-- Function `Table::select_prev` (table.rs lines 256-260). -/
def selectPrev (t : Table) (index : Nat) : Table :=
  { t with selected := some (t.selected.getD 0 - index) }

/-- Function `Table::select_first` (table.rs lines 262-264). -/
def selectFirst (t : Table) : Table :=
  { t with selected := some 0 }

/-- Function `Table::select_last` (table.rs lines 266-272). -/
def selectLast (t : Table) : Table :=
  if t.items.isEmpty then { t with selected := some 0 }
  else { t with selected := some (t.items.length - 1) }

/-- A step of a user-driven selection sequence: `select_next(step)` or
`select_prev(step)`. -/
inductive SelectOp where
  | next (step : Nat)
  | prev (step : Nat)
deriving DecidableEq, Repr

/-- Apply one selection operation. -/
def applyOp (t : Table) : SelectOp → Table
  | .next s => selectNext t s
  | .prev s => selectPrev t s

/-- Apply a sequence of selection operations, oldest first. -/
def applyOps (t : Table) (ops : List SelectOp) : Table := ops.foldl applyOp t

/-- The column widths as §4.5 of the specification words them: per column, the
maximum grapheme display width across the header cell and all of the rows'
cells.  Stated from the specification, to be compared with `naturalDigits`. -/
def specNaturalWidth (header : List RStr) (items : List (List RStr)) (i : Nat) : Nat :=
  max (strWidth (header.getD i []))
    ((items.map fun r => strWidth (r.getD i [])).foldr max 0)

/-- The column width the code actually computes, column-wise: the maximum of
the header cell's display width and every row cell's byte length. -/
def naturalWidth (header : List RStr) (items : List (List RStr)) (i : Nat) : Nat :=
  max (strWidth (header.getD i []))
    ((items.map fun r => strLen (r.getD i [])).foldr max 0)

/-! ## Window (`src/src/ui/window.rs`) -/

/-- A `ratatui::layout::Rect` (u16 coordinates, modelled as `Nat`). -/
structure Rect where
  x : Nat
  y : Nat
  width : Nat
  height : Nat
deriving DecidableEq, Repr

/-- Modelled from the spec: the `RectContainsPoint` helper of `ui::util` is not
in the tree; §4.3 has mouse dispatch compute "which UI region (tab bar /
content area / outside) contains the cursor".  A rect contains the positions
from its top-left corner (inclusive) up to its width/height (exclusive). -/
def Rect.containsPoint (r : Rect) (p : Nat × Nat) : Bool :=
  r.x ≤ p.1 && p.1 < r.x + r.width && r.y ≤ p.2 && p.2 < r.y + r.height

/-- A popup: exactly one widget plus an identifier (§3); only the id and the
rendered bounds (`Popup::chunk`) are consulted by `Window`'s dispatch. -/
structure Popup where
  id : String
  chunk : Rect
deriving DecidableEq, Repr

/-- The `Window` state consulted by tab activation, popup handling and input
dispatch.  Tabs are kept as their ids (only `tabs.len()` and existence checks
matter here); `tabChunk` and `contentsChunk` stand for the cached layout's
`chunks()[layout_index.tab]` and `chunks()[layout_index.contents]`. -/
structure Window where
  tabs : List String
  activeTabIndex : Nat
  popups : List Popup
  openPopupId : Option String
  tabChunk : Rect
  contentsChunk : Rect
deriving DecidableEq, Repr

/-- Function `Window::open_popup` (window.rs lines 297-299). -/
def openPopup (w : Window) (id : String) : Window :=
  { w with openPopupId := some id }

/-- Function `Window::close_popup` (window.rs lines 301-303). -/
def closePopup (w : Window) : Window :=
  { w with openPopupId := none }

/-- Function `Window::activate_tab_by_index` (window.rs lines 324-328): bounds-checked,
no-op when the index does not name a tab. -/
def activateTabByIndex (w : Window) (index : Nat) : Window :=
  if index < w.tabs.length then { w with activeTabIndex := index } else w

/-- Function `Window::activate_next_tab` (window.rs lines 330-332). -/
def activateNextTab (w : Window) : Window :=
  { w with activeTabIndex := (w.activeTabIndex + 1) % w.tabs.length }

/-- Function `Window::activate_prev_tab` (window.rs lines 334-336). -/
def activatePrevTab (w : Window) : Window :=
  { w with activeTabIndex := (w.activeTabIndex + w.tabs.length - 1) % w.tabs.length }

/-- A step of a tab-switching sequence. -/
inductive TabOp where
  | byIndex (j : Nat)
  | nextTab
  | prevTab
deriving DecidableEq, Repr

/-- Apply one tab-switching operation. -/
def applyTabOp (w : Window) : TabOp → Window
  | .byIndex j => activateTabByIndex w j
  | .nextTab => activateNextTab w
  | .prevTab => activatePrevTab w

/-- Apply a sequence of tab-switching operations, oldest first. -/
def applyTabOps (w : Window) (ops : List TabOp) : Window := ops.foldl applyTabOp w

/-- Type `crossterm::event::MouseEventKind`, abstracted to what the window consults:
whether the event is a left-button press (`Down(MouseButton::Left)`), a move,
or anything else. -/
inductive MouseKind where
  | downLeft
  | moved
  | other
deriving DecidableEq, Repr

/-- A mouse event: kind plus cursor column/row. -/
structure MouseEvent where
  kind : MouseKind
  column : Nat
  row : Nat
deriving DecidableEq, Repr

/-- Function `MousePosition::position` = `(column, row)`. -/
def MouseEvent.position (ev : MouseEvent) : Nat × Nat := (ev.column, ev.row)

/-- Type `AreaKind` (window.rs lines 463-467). -/
inductive AreaKind where
  | tab
  | widgets
  | outSide
deriving DecidableEq, Repr

/-- Function `Window::area_kind_by_cursor_position` (window.rs lines 531-539). -/
def areaKindByCursorPosition (w : Window) (pos : Nat × Nat) : AreaKind :=
  if w.tabChunk.containsPoint pos then .tab
  else if w.contentsChunk.containsPoint pos then .widgets
  else .outSide

/-- The popup the open-popup id resolves to:
`self.popups.iter().find(|w| w.id() == id)`. -/
def findPopup (w : Window) (id : String) : Option Popup :=
  w.popups.find? fun p => p.id == id

/-- Where `Window::on_mouse_event` (window.rs lines 541-574) sends the event:
to the open popup's handler, to `close_popup` (which returns `Nop`), to the
tab-bar area handler (returns `Nop`), to the active tab's widgets, or nowhere
(outside; returns `Ignore`). -/
inductive MouseDispatch where
  | popup (id : String)
  | popupClose
  | tabArea
  | activeTab
  | outside
deriving DecidableEq, Repr

/-- The dispatch `Window::on_mouse_event` performs after (or absent) the open
popup's interception: route by the cursor's area (window.rs lines 553-571). -/
def areaDispatch (w : Window) (ev : MouseEvent) : MouseDispatch :=
  match areaKindByCursorPosition w (ev.column, ev.row) with
  | .tab => .tabArea
  | .widgets => .activeTab
  | .outSide => .outside

/-- The routing decision of `Window::on_mouse_event` (window.rs lines 541-574):
an open, resolvable popup handles the event when the cursor is inside its
bounds; a left press outside closes the popup; any other event outside the
popup's bounds falls through to the area dispatch. -/
def mouseDispatch (w : Window) (ev : MouseEvent) : MouseDispatch :=
  match w.openPopupId with
  | some id =>
    match findPopup w id with
    | some popup =>
      if popup.chunk.containsPoint ev.position then .popup id
      else if ev.kind = .downLeft then .popupClose
      else areaDispatch w ev
    | none => areaDispatch w ev
  | none => areaDispatch w ev

/-- The open-popup id after `Window::on_mouse_event`: only the
`close_popup()` branch (window.rs lines 546-549) touches it. -/
def openPopupIdAfterMouse (w : Window) (ev : MouseEvent) : Option String :=
  if mouseDispatch w ev = .popupClose then none else w.openPopupId

/-- Type `EventResult` (the four dispatch outcomes of §4.3), payloads abstracted. -/
inductive EventResult where
  | nop
  | ignore
  | callback
  | window
deriving DecidableEq, Repr

/-- The `EventResult` `Window::on_mouse_event` itself returns, on the branches
where the window determines it (the popup and active-tab branches return
whatever the sub-handler returns). -/
def mouseResultOfDispatch : MouseDispatch → Option EventResult
  | .popupClose => some .nop
  | .tabArea => some .nop
  | .outside => some .ignore
  | .popup _ => none
  | .activeTab => none

/-- Where `Window::on_key_event` (window.rs lines 493-529) sends a key event:
to the open popup when its id resolves, otherwise to the active tab's active
widget.  The routing does not depend on the key itself. -/
inductive KeyDispatch where
  | popup (id : String)
  | activeWidget
deriving DecidableEq, Repr

/-- The routing decision of `Window::on_key_event` (window.rs lines 496-502). -/
def keyDispatch (w : Window) : KeyDispatch :=
  match w.openPopupId with
  | some id => if (findPopup w id).isSome then .popup id else .activeWidget
  | none => .activeWidget

/-! ## Grapheme wrapping (`src/src/tui_wrapper/widget/text2.rs`, mod `wrap`)

A line is a slice of `StyledGrapheme`s; the wrap logic only consults each
grapheme's `symbol.width()`.  The embedding is polymorphic in the grapheme
type `α` with an explicit width function `wf`. -/

/-- Sum of the display widths of a grapheme sequence. -/
def widthSum (wf : α → Nat) (line : List α) : Nat := (line.map wf).sum

/-- The loop of `fn wrap` (text2.rs lines 414-436), with the running width
`sum` explicit: scan the line, and cut before the first grapheme whose width
would push the total past `wrap_width`. -/
def wrapAux (wf : α → Nat) (wrapWidth : Nat) : List α → Nat → List α × List α
  | [], _ => ([], [])
  | g :: rest, sum =>
    if wrapWidth < sum + wf g then ([], g :: rest)
    else
      let p := wrapAux wf wrapWidth rest (sum + wf g)
      (g :: p.1, p.2)

/-- Function `wrap` (text2.rs lines 414-436): split a line into the wrapped prefix
that fits in `wrap_width` columns and the remaining suffix. -/
def wrapStep (wf : α → Nat) (line : List α) (wrapWidth : Nat) : List α × List α :=
  wrapAux wf wrapWidth line 0

/-- Function `Wrap::next` (text2.rs lines 385-406) iterated, truncated after `fuel`
yields: while the line is non-empty, emit the wrapped prefix and continue on
the remainder. -/
def wrapIter (wf : α → Nat) (wrapWidth : Nat) : Nat → List α → List (List α)
  | 0, _ => []
  | _, [] => []
  | fuel + 1, line =>
    let p := wrapStep wf line wrapWidth
    p.1 :: wrapIter wf wrapWidth fuel p.2

/-- The lines the `Wrap` iterator yields for a line, collected.  `line.length`
yields suffice exactly when every step consumes at least one grapheme (each
grapheme's width is at most `wrap_width`); when a step consumes nothing the
Rust iterator never terminates, and this truncation then keeps only the empty
prefixes it yields. -/
def wrapLines (wf : α → Nat) (line : List α) (wrapWidth : Nat) : List (List α) :=
  wrapIter wf wrapWidth line.length line

/-! ## Line iterator (`src/src/tui_wrapper/widget/text2.rs`, mod `render`) -/

/-- An item the `LineIterator` yields: a grapheme of the line, or one of the
placeholder graphemes `RENDER_LEFT_PADDING` (`"<"`) and `RENDER_RIGHT_PADDING`
(`">"`), both of display width 1. -/
inductive OutG (α : Type) where
  | orig (g : α)
  | leftPad
  | rightPad
deriving DecidableEq, Repr

/-- Display width of an emitted item: the grapheme's width, or 1 for the
single-column placeholders. -/
def outWidth (wf : α → Nat) : OutG α → Nat
  | .orig g => wf g
  | .leftPad => 1
  | .rightPad => 1

/-- The loop of `LineIterator::start` (text2.rs lines 696-710), with the
running width `sum` explicit: skip graphemes while the scroll offset is past
them, returning how many were skipped and their total width. -/
def lineStartAux (wf : α → Nat) (scroll : Nat) : List α → Nat → Nat × Nat
  | [], sum => (0, sum)
  | g :: rest, sum =>
    if scroll < sum + wf g then (0, sum)
    else
      let p := lineStartAux wf scroll rest (sum + wf g)
      (p.1 + 1, p.2)

/-- Function `LineIterator::start` (text2.rs lines 696-710). -/
def lineStart (wf : α → Nat) (line : List α) (scroll : Nat) : Nat × Nat :=
  lineStartAux wf scroll line 0

/-- Function `LineIterator::next` (text2.rs lines 721-753) iterated over the remaining
graphemes, with the `sum_width` state explicit (`Nat` subtraction is Rust's
`saturating_sub`): a double-width grapheme cut by the scroll offset becomes
`RENDER_LEFT_PADDING`, one cut by the right render edge becomes
`RENDER_RIGHT_PADDING`, and iteration stops at the first grapheme that fits
neither. -/
def lineIterAux (wf : α → Nat) (scroll offset renderWidth : Nat) :
    List α → Nat → List (OutG α)
  | [], _ => []
  | g :: rest, sumWidth =>
    let sw := sumWidth + wf g
    if wf g = 2 ∧ (sw + offset) - scroll = 1 then
      .leftPad :: lineIterAux wf scroll offset renderWidth rest (sw - 1)
    else if sw ≤ renderWidth then
      .orig g :: lineIterAux wf scroll offset renderWidth rest sw
    else if wf g = 2 ∧ sw - renderWidth = 1 then
      .rightPad :: lineIterAux wf scroll offset renderWidth rest (sw - 1)
    else []

/-- The items `LineIterator::new(line, scroll, width)` yields, collected
(text2.rs lines 683-753). -/
def lineIterator (wf : α → Nat) (line : List α) (scroll renderWidth : Nat) :
    List (OutG α) :=
  let p := lineStart wf line scroll
  lineIterAux wf scroll p.2 renderWidth (line.drop p.1) 0

/-! ## Content updates for Kube responses (`src/src/action.rs`) -/

/-- The `error_format!` macro (action.rs lines 68-72): wrap a line in the red
ANSI error block. -/
def errorFormat (line : String) : String :=
  "\x1b[31m[kubetui] " ++ line ++ "\x1b[39m"

/-- An error value carried by a `Kube` response, modelled by the lines of its
`Debug` representation (`format!("{:?}", e)` split at line breaks). -/
abbrev KubeError := List String

/-- The full `Debug` representation of an error. -/
def errorDebug (e : KubeError) : String := String.intercalate "\n" e

/-- The `error_lines!` macro (action.rs lines 74-84): one error-formatted
literal item per line of the error's `Debug` representation. -/
def errorLines (e : KubeError) : List String := e.map errorFormat

/-- A `KubeTable` payload: header plus rows (each row's cells; the
namespace/name metadata that `update_widget_item_for_table` folds into the
item metadata map is not consulted by the update logic modelled here). -/
structure KubeTable where
  header : List String
  rows : List (List String)
deriving DecidableEq, Repr

/-- The table widget's content as `action.rs` updates it. -/
structure TableWidget where
  header : List String
  rows : List (List String)
deriving DecidableEq, Repr

/-- Modelled from the spec: the widget layer's `update_header_and_rows` is not
in the tree; per §7 the error block is "rendered ... inside the affected
widget's content area (replacing or prefixing normal content)" — it replaces
the table's header and rows. -/
def updateHeaderAndRows (w : TableWidget) (header : List String)
    (rows : List (List String)) : TableWidget :=
  { w with header := header, rows := rows }

/-- Modelled from the spec: the widget layer's `update_widget_item` is not in
the tree; it replaces the widget's item collection (§4.5 `set_items`). -/
def TableWidget.updateWidgetItem (w : TableWidget) (rows : List (List String)) :
    TableWidget :=
  { w with rows := rows }

/-- Function `update_widget_item_for_table` (action.rs lines 113-184): a success payload
replaces the rows (and the header too when it changed); an error value becomes
a single row holding the error-formatted `Debug` text under an `"ERROR"`
header. -/
def updateWidgetItemForTable (w : TableWidget) (table : Except KubeError KubeTable) :
    TableWidget :=
  match table with
  | .ok t =>
    if w.header = t.header then w.updateWidgetItem t.rows
    else updateHeaderAndRows w t.header t.rows
  | .error e => updateHeaderAndRows w ["ERROR"] [[errorFormat (errorDebug e)]]

/-- A list/text widget's content as `action.rs` updates it. -/
structure ListWidget where
  items : List String
deriving DecidableEq, Repr

/-- Modelled from the spec: the widget layer's `update_widget_item` replaces
the widget's item collection. -/
def ListWidget.updateWidgetItem (w : ListWidget) (items : List String) : ListWidget :=
  { w with items := items }

/-- Function `update_widget_item_for_vec` (action.rs lines 186-196): a success payload
replaces the items; an error value becomes the error-formatted lines. -/
def updateWidgetItemForVec (w : ListWidget) (vec : Except KubeError (List String)) :
    ListWidget :=
  match vec with
  | .ok i => w.updateWidgetItem i
  | .error e => w.updateWidgetItem (errorLines e)

/-! ## Helper lemmas: wrapping -/

theorem wrapAux_append (wf : α → Nat) (ww : Nat) (line : List α) (sum : Nat) :
    (wrapAux wf ww line sum).1 ++ (wrapAux wf ww line sum).2 = line := by
  induction line generalizing sum with
  | nil => rfl
  | cons g rest ih =>
    rw [wrapAux]
    split
    · rfl
    · dsimp only
      rw [List.cons_append, ih]

theorem wrapAux_width_le (wf : α → Nat) (ww : Nat) (line : List α) (sum : Nat)
    (h : sum ≤ ww) :
    sum + widthSum wf (wrapAux wf ww line sum).1 ≤ ww := by
  induction line generalizing sum with
  | nil => simpa [wrapAux, widthSum]
  | cons g rest ih =>
    rw [wrapAux]
    split
    · simpa [widthSum]
    · dsimp only
      have hle : sum + wf g ≤ ww := by omega
      have := ih (sum + wf g) hle
      simp only [widthSum, List.map_cons, List.sum_cons] at this ⊢
      omega

theorem wrapStep_append (wf : α → Nat) (line : List α) (ww : Nat) :
    (wrapStep wf line ww).1 ++ (wrapStep wf line ww).2 = line :=
  wrapAux_append wf ww line 0

theorem wrapStep_width_le (wf : α → Nat) (line : List α) (ww : Nat) :
    widthSum wf (wrapStep wf line ww).1 ≤ ww := by
  have := wrapAux_width_le wf ww line 0 (Nat.zero_le ww)
  simpa [wrapStep] using this

theorem wrapStep_progress (wf : α → Nat) (g : α) (rest : List α) (ww : Nat)
    (h : wf g ≤ ww) : (wrapStep wf (g :: rest) ww).1 ≠ [] := by
  rw [wrapStep, wrapAux, if_neg (by omega)]
  simp

theorem wrapStep_remaining_lt (wf : α → Nat) (g : α) (rest : List α) (ww : Nat)
    (h : wf g ≤ ww) :
    (wrapStep wf (g :: rest) ww).2.length < (g :: rest).length := by
  have happ := wrapStep_append wf (g :: rest) ww
  have hne := wrapStep_progress wf g rest ww h
  have : (wrapStep wf (g :: rest) ww).1.length +
      (wrapStep wf (g :: rest) ww).2.length = (g :: rest).length := by
    rw [← List.length_append, happ]
  have h1 : 0 < (wrapStep wf (g :: rest) ww).1.length :=
    List.length_pos.mpr hne
  omega

theorem wrapIter_join_of_le (wf : α → Nat) (ww : Nat) (fuel : Nat) (line : List α)
    (hfuel : line.length ≤ fuel) (hall : ∀ g ∈ line, wf g ≤ ww) :
    (wrapIter wf ww fuel line).flatten = line ∧
    (∀ seg ∈ wrapIter wf ww fuel line, seg ≠ [] ∧ widthSum wf seg ≤ ww) := by
  induction fuel generalizing line with
  | zero =>
    have : line = [] := List.length_eq_zero.mp (by omega)
    subst this
    exact ⟨rfl, by simp [wrapIter]⟩
  | succ fuel ih =>
    cases line with
    | nil => exact ⟨rfl, by simp [wrapIter]⟩
    | cons g rest =>
      have hg : wf g ≤ ww := hall g (List.mem_cons_self g rest)
      have happ := wrapStep_append wf (g :: rest) ww
      have hlt := wrapStep_remaining_lt wf g rest ww hg
      have hmem : ∀ x ∈ (wrapStep wf (g :: rest) ww).2, wf x ≤ ww := by
        intro x hx
        exact hall x (by rw [← happ]; exact List.mem_append_right _ hx)
      have hrec := ih (wrapStep wf (g :: rest) ww).2
        (by simp only [List.length_cons] at hlt hfuel; omega) hmem
      constructor
      · show ((wrapStep wf (g :: rest) ww).1 ::
          wrapIter wf ww fuel (wrapStep wf (g :: rest) ww).2).flatten = g :: rest
        rw [List.flatten_cons, hrec.1, happ]
      · intro seg hseg
        have : seg = (wrapStep wf (g :: rest) ww).1 ∨
            seg ∈ wrapIter wf ww fuel (wrapStep wf (g :: rest) ww).2 := by
          simpa [wrapIter] using hseg
        rcases this with h | h
        · subst h
          exact ⟨wrapStep_progress wf g rest ww hg, wrapStep_width_le wf _ ww⟩
        · exact hrec.2 seg h

/-! ## C5 — wrapping bounds widths and round-trips -/

/-- C5 (amended): provided every grapheme's display width is at most the
target width (for widths of 1 or 2, any target ≥ 2), the wrap pass cuts the
line into a fitting prefix and a remainder, every emitted line's display width
stays within the target, and concatenating the emitted lines reproduces the
original grapheme sequence; in particular ten double-width graphemes wrapped
at width 11 give exactly two lines of five graphemes each.  (Without the
proviso the Rust iterator never terminates: see the counterexample.) -/
theorem wrap_width_bound_and_roundtrip (wf : α → Nat) (line : List α) (ww : Nat)
    (hall : ∀ g ∈ line, wf g ≤ ww) :
    (wrapStep wf line ww).1 ++ (wrapStep wf line ww).2 = line ∧
    (∀ seg ∈ wrapLines wf line ww, widthSum wf seg ≤ ww) ∧
    (wrapLines wf line ww).flatten = line ∧
    wrapLines (fun _ : Nat => 2) (List.range 10) 11 =
      [[0, 1, 2, 3, 4], [5, 6, 7, 8, 9]] := by
  have h := wrapIter_join_of_le wf ww line.length line (Nat.le_refl _) hall
  exact ⟨wrapStep_append wf line ww,
    fun seg hseg => (h.2 seg hseg).2, h.1, by decide⟩

/-- Witness for C5: the §8 scenario — ten double-width graphemes wrapped at
width 11 round-trip, every width within the target. -/
theorem wrap_width_bound_and_roundtrip_witness :
    (∀ g ∈ List.range 10, (fun _ : Nat => 2) g ≤ 11) ∧
    (wrapLines (fun _ : Nat => 2) (List.range 10) 11).flatten = List.range 10 :=
  ⟨by decide,
   (wrap_width_bound_and_roundtrip (fun _ : Nat => 2) (List.range 10) 11
     (by decide)).2.2.1⟩

/-- Counterexample to C5 as stated (for EVERY target width): a single
double-width grapheme at target width 1 is never consumed — the wrap step
emits an empty prefix and leaves the line untouched, so the Rust iterator
yields empty lines forever and no concatenation of emitted lines ever
reproduces the original sequence. -/
theorem wrap_roundtrip_counterexample :
    (wrapStep (fun _ : Nat => 2) [0] 1).1 = [] ∧
    (wrapStep (fun _ : Nat => 2) [0] 1).2 = [0] ∧
    (wrapLines (fun _ : Nat => 2) [0] 1).flatten ≠ [0] := by
  decide

/-! ## C10 — wrap termination and non-empty segments -/

/-- C10: for a non-empty line in which every grapheme's display width is at
most the wrap width, each wrap step consumes at least one grapheme (the
emitted prefix is non-empty and the remainder strictly shrinks), so the Wrap
iterator terminates within `line.length` steps, having emitted only non-empty
segments whose concatenation is the whole line. -/
theorem wrap_terminates_nonempty_segments (wf : α → Nat) (line : List α) (ww : Nat)
    (hne : line ≠ []) (hall : ∀ g ∈ line, wf g ≤ ww) :
    (wrapStep wf line ww).1 ≠ [] ∧
    (wrapStep wf line ww).2.length < line.length ∧
    (∀ seg ∈ wrapLines wf line ww, seg ≠ []) ∧
    (wrapLines wf line ww).flatten = line := by
  cases line with
  | nil => exact absurd rfl hne
  | cons g rest =>
    have hg : wf g ≤ ww := hall g (List.mem_cons_self g rest)
    have h := wrapIter_join_of_le wf ww (g :: rest).length (g :: rest)
      (Nat.le_refl _) hall
    exact ⟨wrapStep_progress wf g rest ww hg,
      wrapStep_remaining_lt wf g rest ww hg,
      fun seg hseg => (h.2 seg hseg).1, h.1⟩

/-- Witness for C10 at a concrete line of mixed widths. -/
theorem wrap_terminates_nonempty_segments_witness :
    (([1, 2, 1] : List Nat) ≠ [] ∧ ∀ g ∈ ([1, 2, 1] : List Nat), g ≤ 2) ∧
    (wrapLines (fun g : Nat => g) [1, 2, 1] 2).flatten = [1, 2, 1] :=
  ⟨⟨by decide, by decide⟩,
   (wrap_terminates_nonempty_segments (fun g : Nat => g) [1, 2, 1] 2
     (by decide) (by decide)).2.2.2⟩

/-! ## Helper lemmas: line iterator -/

theorem lineStartAux_spec (wf : α → Nat) (scroll : Nat) (line : List α) (sum : Nat)
    (h : sum ≤ scroll) :
    (lineStartAux wf scroll line sum).2 ≤ scroll ∧
    (∀ g rest, line.drop (lineStartAux wf scroll line sum).1 = g :: rest →
      scroll < (lineStartAux wf scroll line sum).2 + wf g) := by
  induction line generalizing sum with
  | nil =>
    refine ⟨h, ?_⟩
    intro g rest hdrop
    simp [lineStartAux] at hdrop
  | cons g0 rest0 ih =>
    rw [lineStartAux]
    by_cases hc : scroll < sum + wf g0
    · rw [if_pos hc]
      refine ⟨h, ?_⟩
      intro g rest hdrop
      simp only [List.drop_zero] at hdrop
      cases hdrop
      exact hc
    · rw [if_neg hc]
      dsimp only
      have hle : sum + wf g0 ≤ scroll := by omega
      have hrec := ih (sum + wf g0) hle
      refine ⟨hrec.1, ?_⟩
      intro g rest hdrop
      rw [List.drop_succ_cons] at hdrop
      exact hrec.2 g rest hdrop

theorem lineIterAux_width_le (wf : α → Nat) (scroll offset renderWidth : Nat)
    (hrw : 1 ≤ renderWidth) (hso : scroll ≤ offset + 1) (line : List α) (s : Nat)
    (hs : s ≤ renderWidth) :
    widthSum (outWidth wf) (lineIterAux wf scroll offset renderWidth line s) + s ≤
      renderWidth := by
  induction line generalizing s with
  | nil => simpa [lineIterAux, widthSum]
  | cons g rest ih =>
    rw [lineIterAux]
    by_cases h1 : wf g = 2 ∧ (s + wf g + offset) - scroll = 1
    · rw [if_pos h1]
      have hs1 : s + wf g - 1 ≤ renderWidth := by omega
      have hrec := ih (s + wf g - 1) hs1
      simp only [widthSum, List.map_cons, List.sum_cons, outWidth] at hrec ⊢
      omega
    · rw [if_neg h1]
      by_cases h2 : s + wf g ≤ renderWidth
      · rw [if_pos h2]
        have hrec := ih (s + wf g) h2
        simp only [widthSum, List.map_cons, List.sum_cons, outWidth] at hrec ⊢
        omega
      · rw [if_neg h2]
        by_cases h3 : wf g = 2 ∧ s + wf g - renderWidth = 1
        · rw [if_pos h3]
          have hs1 : s + wf g - 1 ≤ renderWidth := by omega
          have hrec := ih (s + wf g - 1) hs1
          simp only [widthSum, List.map_cons, List.sum_cons, outWidth] at hrec ⊢
          omega
        · rw [if_neg h3]
          simpa [widthSum]

theorem lineIterator_width_le (wf : α → Nat) (line : List α)
    (scroll renderWidth : Nat) (hw2 : ∀ g ∈ line, wf g ≤ 2)
    (hrw : 1 ≤ renderWidth) :
    widthSum (outWidth wf) (lineIterator wf line scroll renderWidth) ≤
      renderWidth := by
  rw [lineIterator]
  cases hdrop : line.drop (lineStart wf line scroll).1 with
  | nil =>
    simp [lineIterAux, widthSum]
  | cons g rest =>
    have hstart := lineStartAux_spec wf scroll line 0 (Nat.zero_le _)
    have hso : scroll < (lineStart wf line scroll).2 + wf g := by
      exact hstart.2 g rest hdrop
    have hg2 : wf g ≤ 2 := by
      refine hw2 g (List.drop_subset (lineStart wf line scroll).1 line ?_)
      rw [hdrop]
      exact List.mem_cons_self g rest
    have hso1 : scroll ≤ (lineStart wf line scroll).2 + 1 := by omega
    have := lineIterAux_width_le wf scroll (lineStart wf line scroll).2 renderWidth
      hrw hso1 (g :: rest) 0 (by omega)
    omega

/-! ## C6 — placeholder substitution at clipped double-width graphemes -/

/-- C6: the line iterator preserves column alignment — the emitted display
widths (placeholders counting 1) never exceed the render width; when the
horizontal scroll offset lands strictly inside a double-width grapheme, the
first emitted item is the single-column `"<"` placeholder instead of the
partially visible glyph; when a double-width grapheme would overshoot the
right render edge by exactly one column, the `">"` placeholder is emitted in
its place; the two concrete scenarios mirror the source's unit tests (ten
double-width graphemes, scroll 3 / width 30 and scroll 4 / width 15). -/
theorem line_iterator_edge_padding (wf : α → Nat) (line : List α)
    (scroll renderWidth : Nat) (hw2 : ∀ g ∈ line, wf g ≤ 2)
    (hrw : 1 ≤ renderWidth) :
    widthSum (outWidth wf) (lineIterator wf line scroll renderWidth) ≤ renderWidth ∧
    (∀ g rest, line.drop (lineStart wf line scroll).1 = g :: rest → wf g = 2 →
      scroll = (lineStart wf line scroll).2 + 1 →
      (lineIterator wf line scroll renderWidth).head? = some .leftPad) ∧
    (∀ (off s : Nat) (g : α) (rest : List α), wf g = 2 →
      s + wf g = renderWidth + 1 → (s + wf g + off) - scroll ≠ 1 →
      (lineIterAux wf scroll off renderWidth (g :: rest) s).head? =
        some .rightPad) ∧
    lineIterator (fun _ : Nat => 2) (List.range 10) 3 30 =
      [.leftPad, .orig 2, .orig 3, .orig 4, .orig 5, .orig 6, .orig 7, .orig 8,
        .orig 9] ∧
    lineIterator (fun _ : Nat => 2) (List.range 10) 4 15 =
      [.orig 2, .orig 3, .orig 4, .orig 5, .orig 6, .orig 7, .orig 8,
        .rightPad] := by
  refine ⟨lineIterator_width_le wf line scroll renderWidth hw2 hrw, ?_, ?_,
    by decide, by decide⟩
  · intro g rest hdrop hg hscroll
    rw [lineIterator]
    rw [hdrop, lineIterAux]
    rw [if_pos ⟨hg, by omega⟩]
    rfl
  · intro off s g rest hg hs hnl
    rw [lineIterAux]
    rw [if_neg fun hc => hnl hc.2, if_neg (by omega), if_pos ⟨hg, by omega⟩]
    rfl

/-- Witness for C6: the unit-test scenario — ten double-width graphemes,
scroll 3, render width 30: the scroll cuts the second grapheme in half, and
the first emitted item is the `"<"` placeholder. -/
theorem line_iterator_edge_padding_witness :
    ((∀ g ∈ List.range 10, (fun _ : Nat => 2) g ≤ 2) ∧ 1 ≤ 30) ∧
    (lineIterator (fun _ : Nat => 2) (List.range 10) 3 30).head? =
      some OutG.leftPad :=
  ⟨⟨by decide, by decide⟩,
   (line_iterator_edge_padding (fun _ : Nat => 2) (List.range 10) 3 30
     (by decide) (by decide)).2.1 1 [2, 3, 4, 5, 6, 7, 8, 9]
     (by decide) (by decide) (by decide)⟩

/-! ## Helper lemmas: table column widths -/

theorem updDigitsRow_nil_row (digits : List Nat) : updDigitsRow digits [] = digits := by
  simp [updDigitsRow]

theorem updDigitsRow_cons (d : Nat) (ds : List Nat) (c : RStr) (cs : List RStr) :
    updDigitsRow (d :: ds) (c :: cs) = max d (strLen c) :: updDigitsRow ds cs := rfl

theorem updDigitsRow_length (digits : List Nat) (row : List RStr) :
    (updDigitsRow digits row).length = digits.length := by
  simp only [updDigitsRow, List.length_append, List.length_zipWith, List.length_drop]
  omega

theorem updDigitsRow_getD (digits : List Nat) (row : List RStr) (i : Nat)
    (h : i < digits.length) :
    (updDigitsRow digits row).getD i 0 =
      max (digits.getD i 0) (strLen (row.getD i [])) := by
  induction digits generalizing row i with
  | nil => simp at h
  | cons d ds ih =>
    cases row with
    | nil =>
      rw [updDigitsRow_nil_row]
      simp [strLen]
    | cons c cs =>
      rw [updDigitsRow_cons]
      cases i with
      | zero => simp
      | succ n =>
        simp only [List.getD_cons_succ]
        exact ih cs n (by simpa using h)

theorem foldl_updDigitsRow_length (items : List (List RStr)) (digits0 : List Nat) :
    (items.foldl updDigitsRow digits0).length = digits0.length := by
  induction items generalizing digits0 with
  | nil => rfl
  | cons r rs ih => rw [List.foldl_cons, ih, updDigitsRow_length]

theorem foldl_updDigitsRow_getD (items : List (List RStr)) (digits0 : List Nat)
    (i : Nat) (h : i < digits0.length) :
    (items.foldl updDigitsRow digits0).getD i 0 =
      max (digits0.getD i 0)
        ((items.map fun r => strLen (r.getD i [])).foldr max 0) := by
  induction items generalizing digits0 with
  | nil => simp
  | cons r rs ih =>
    rw [List.foldl_cons,
      ih (updDigitsRow digits0 r) (by rw [updDigitsRow_length]; exact h),
      updDigitsRow_getD digits0 r i h]
    simp only [List.map_cons, List.foldr_cons]
    exact Nat.max_assoc _ _ _

theorem getD_map_strWidth (l : List RStr) (i : Nat) (hi : i < l.length) :
    (l.map strWidth).getD i 0 = strWidth (l.getD i []) := by
  induction l generalizing i with
  | nil => simp at hi
  | cons a as ih =>
    cases i with
    | zero => simp
    | succ n => simpa using ih n (by simpa using hi)

theorem naturalDigits_eq (t : Table) (hh : t.header ≠ []) :
    naturalDigits t = t.items.foldl updDigitsRow (t.header.map strWidth) := by
  rw [naturalDigits]
  have h : t.header.isEmpty = false := by
    cases hl : t.header with
    | nil => exact absurd hl hh
    | cons a as => rfl
  rw [h]
  simp

theorem naturalDigits_length (t : Table) (hh : t.header ≠ []) :
    (naturalDigits t).length = t.header.length := by
  rw [naturalDigits_eq t hh, foldl_updDigitsRow_length, List.length_map]

theorem naturalDigits_getD (t : Table) (hh : t.header ≠ []) (i : Nat)
    (hi : i < t.header.length) :
    (naturalDigits t).getD i 0 = naturalWidth t.header t.items i := by
  rw [naturalDigits_eq t hh,
    foldl_updDigitsRow_getD _ _ i (by simpa using hi), naturalWidth,
    getD_map_strWidth _ i hi]

theorem setWidths_eq (t : Table) (hne : t.items ≠ []) :
    setWidths t =
      if (naturalDigits t).sum + COLUMN_SPACING * ((naturalDigits t).length - 1) ≤
          t.rowWidth then
        { t with digits := naturalDigits t, widths := naturalDigits t }
      else
        { t with
          digits := (naturalDigits t).set 0 (t.rowWidth -
            (COLUMN_SPACING * ((naturalDigits t).length - 1) +
              ((naturalDigits t).drop 1).sum)),
          widths := (naturalDigits t).set 0 (t.rowWidth -
            (COLUMN_SPACING * ((naturalDigits t).length - 1) +
              ((naturalDigits t).drop 1).sum)) } := by
  rw [setWidths]
  have h : t.items.isEmpty = false := by
    cases hl : t.items with
    | nil => exact absurd hl hne
    | cons a as => rfl
  rw [h]
  simp

theorem getD_set_zero (l : List Nat) (v : Nat) (h : l ≠ []) :
    (l.set 0 v).getD 0 0 = v := by
  cases l with
  | nil => exact absurd rfl h
  | cons a as => rfl

theorem getD_set_zero_succ (l : List Nat) (v n : Nat) :
    (l.set 0 v).getD (n + 1) 0 = l.getD (n + 1) 0 := by
  cases l <;> rfl

theorem sum_set_zero (l : List Nat) (v : Nat) (h : l ≠ []) :
    (l.set 0 v).sum = v + (l.drop 1).sum := by
  cases l with
  | nil => exact absurd rfl h
  | cons a as => simp

theorem sum_eq_getD_zero_add (l : List Nat) (h : l ≠ []) :
    l.sum = l.getD 0 0 + (l.drop 1).sum := by
  cases l with
  | nil => exact absurd rfl h
  | cons a as => simp

/-! ## C4 — table column widths and the first-column overflow policy -/

/-- C4 (amended): the natural width of each column is the maximum of the
header cell's grapheme DISPLAY width and the BYTE lengths of that column's row
cells (`col.len()`, not `col.width()` — the two agree only on ASCII); and
when the natural widths plus fixed inter-column spacing exceed the available
row width, only the first column is reduced — it is set to the available width
minus the spacing and the other columns' natural widths (saturating at 0), so
every other column keeps its natural width, and the total including spacing
equals the available width whenever the saturation is not hit. -/
theorem table_column_widths (t : Table) (hne : t.items ≠ []) (hh : t.header ≠ [])
    (hrect : ∀ r ∈ t.items, r.length ≤ t.header.length) :
    (∀ i, i < t.header.length →
      (naturalDigits t).getD i 0 = naturalWidth t.header t.items i) ∧
    ((naturalDigits t).sum + COLUMN_SPACING * ((naturalDigits t).length - 1) ≤
        t.rowWidth →
      (setWidths t).widths = naturalDigits t) ∧
    (t.rowWidth <
        (naturalDigits t).sum + COLUMN_SPACING * ((naturalDigits t).length - 1) →
      (setWidths t).widths.getD 0 0 =
        t.rowWidth - (COLUMN_SPACING * ((naturalDigits t).length - 1) +
          ((naturalDigits t).drop 1).sum) ∧
      (setWidths t).widths.getD 0 0 ≤ (naturalDigits t).getD 0 0 ∧
      (∀ i, 1 ≤ i → (setWidths t).widths.getD i 0 = (naturalDigits t).getD i 0) ∧
      (COLUMN_SPACING * ((naturalDigits t).length - 1) +
          ((naturalDigits t).drop 1).sum ≤ t.rowWidth →
        (setWidths t).widths.sum + COLUMN_SPACING * ((naturalDigits t).length - 1) =
          t.rowWidth)) := by
  have hdne : naturalDigits t ≠ [] := by
    have h1 : (naturalDigits t).length = t.header.length := naturalDigits_length t hh
    intro hc
    rw [hc] at h1
    cases hl : t.header with
    | nil => exact hh hl
    | cons a as =>
      rw [hl] at h1
      simp at h1
  refine ⟨fun i hi => naturalDigits_getD t hh i hi, ?_, ?_⟩
  · intro hfit
    rw [setWidths_eq t hne, if_pos hfit]
  · intro hovf
    rw [setWidths_eq t hne, if_neg (by omega)]
    have hsum := sum_eq_getD_zero_add (naturalDigits t) hdne
    refine ⟨getD_set_zero _ _ hdne, by rw [getD_set_zero _ _ hdne]; omega, ?_, ?_⟩
    · intro i hi
      cases i with
      | zero => omega
      | succ n => exact getD_set_zero_succ _ _ n
    · intro hnosat
      rw [sum_set_zero _ _ hdne]
      omega

/-- Witness for C4: a four-column table (header widths 4,5,6,3; one row with
byte lengths 10,3,7,4) whose natural widths 10,5,7,4 plus spacing overflow the
available width 30: the first column shrinks to 5 and the total plus spacing
equals 30. -/
theorem table_column_widths_witness :
    ((⟨[[List.replicate 10 ⟨1, 1⟩, List.replicate 3 ⟨1, 1⟩, List.replicate 7 ⟨1, 1⟩,
          List.replicate 4 ⟨1, 1⟩]],
        [List.replicate 4 ⟨1, 1⟩, List.replicate 5 ⟨1, 1⟩, List.replicate 6 ⟨1, 1⟩,
          List.replicate 3 ⟨1, 1⟩], none, 30, [], []⟩ : Table).items ≠ [] ∧
      (⟨[[List.replicate 10 ⟨1, 1⟩, List.replicate 3 ⟨1, 1⟩, List.replicate 7 ⟨1, 1⟩,
          List.replicate 4 ⟨1, 1⟩]],
        [List.replicate 4 ⟨1, 1⟩, List.replicate 5 ⟨1, 1⟩, List.replicate 6 ⟨1, 1⟩,
          List.replicate 3 ⟨1, 1⟩], none, 30, [], []⟩ : Table).header ≠ []) ∧
    (setWidths ⟨[[List.replicate 10 ⟨1, 1⟩, List.replicate 3 ⟨1, 1⟩,
        List.replicate 7 ⟨1, 1⟩, List.replicate 4 ⟨1, 1⟩]],
      [List.replicate 4 ⟨1, 1⟩, List.replicate 5 ⟨1, 1⟩, List.replicate 6 ⟨1, 1⟩,
        List.replicate 3 ⟨1, 1⟩], none, 30, [], []⟩).widths.sum +
      COLUMN_SPACING * ((naturalDigits ⟨[[List.replicate 10 ⟨1, 1⟩,
        List.replicate 3 ⟨1, 1⟩, List.replicate 7 ⟨1, 1⟩, List.replicate 4 ⟨1, 1⟩]],
      [List.replicate 4 ⟨1, 1⟩, List.replicate 5 ⟨1, 1⟩, List.replicate 6 ⟨1, 1⟩,
        List.replicate 3 ⟨1, 1⟩], none, 30, [], []⟩).length - 1) = 30 ∧
    (setWidths ⟨[[List.replicate 10 ⟨1, 1⟩, List.replicate 3 ⟨1, 1⟩,
        List.replicate 7 ⟨1, 1⟩, List.replicate 4 ⟨1, 1⟩]],
      [List.replicate 4 ⟨1, 1⟩, List.replicate 5 ⟨1, 1⟩, List.replicate 6 ⟨1, 1⟩,
        List.replicate 3 ⟨1, 1⟩], none, 30, [], []⟩).widths = [5, 5, 7, 4] :=
  ⟨⟨by decide, by decide⟩,
   (((table_column_widths
       ⟨[[List.replicate 10 ⟨1, 1⟩, List.replicate 3 ⟨1, 1⟩, List.replicate 7 ⟨1, 1⟩,
           List.replicate 4 ⟨1, 1⟩]],
         [List.replicate 4 ⟨1, 1⟩, List.replicate 5 ⟨1, 1⟩, List.replicate 6 ⟨1, 1⟩,
           List.replicate 3 ⟨1, 1⟩], none, 30, [], []⟩
       (by decide) (by decide) (by decide)).2.2 (by decide)).2.2.2 (by decide)),
   by decide⟩

/-- Counterexample to C4 as stated: a column whose header is the ASCII "A"
(display width 1) and whose single cell is the double-width grapheme "あ"
(display width 2, three UTF-8 bytes) gets natural width 3 — the cell's BYTE
length — while the specification's "max grapheme display width" would be 2. -/
theorem table_column_width_measure_counterexample :
    (setWidths ⟨[[[⟨2, 3⟩]]], [[⟨1, 1⟩]], none, 100, [], []⟩).widths = [3] ∧
    specNaturalWidth [[⟨1, 1⟩]] [[[⟨2, 3⟩]]] 0 = 2 ∧
    (setWidths ⟨[[[⟨2, 3⟩]]], [[⟨1, 1⟩]], none, 100, [], []⟩).widths.getD 0 0 ≠
      specNaturalWidth [[⟨1, 1⟩]] [[[⟨2, 3⟩]]] 0 := by
  decide

/-! ## Helper lemmas: table selection -/

theorem setWidths_selected (t : Table) : (setWidths t).selected = t.selected := by
  rw [setWidths]
  split
  · rfl
  · dsimp only
    split <;> rfl

theorem setWidths_items (t : Table) : (setWidths t).items = t.items := by
  rw [setWidths]
  split
  · rfl
  · dsimp only
    split <;> rfl

theorem setItems_selected (t : Table) (items : List (List RStr)) :
    (setItems t items).selected =
      if items.length = 0 then none
      else if items.length < t.items.length then some (items.length - 1)
      else if t.selected = none then some 0
      else t.selected := by
  rw [setItems]
  exact setWidths_selected _

theorem applyOp_items (t : Table) (op : SelectOp) : (applyOp t op).items = t.items := by
  cases op <;> rfl

theorem applyOp_selected_lt (t : Table) (op : SelectOp)
    (h : ∀ i, t.selected = some i → i < max t.items.length 1) :
    ∀ i, (applyOp t op).selected = some i → i < max t.items.length 1 := by
  cases op with
  | next s =>
    intro i hi
    simp only [applyOp, selectNext] at hi
    cases hsel : t.selected with
    | none =>
      rw [hsel] at hi
      simp only [Option.some.injEq] at hi
      omega
    | some j =>
      have hj := h j hsel
      rw [hsel] at hi
      simp only [Option.some.injEq] at hi
      split at hi <;> omega
  | prev s =>
    intro i hi
    simp only [applyOp, selectPrev, Option.some.injEq] at hi
    cases hsel : t.selected with
    | none =>
      rw [hsel] at hi
      simp only [Option.getD_none] at hi
      omega
    | some j =>
      have hj := h j hsel
      rw [hsel] at hi
      simp only [Option.getD_some] at hi
      omega

theorem applyOps_cons (t : Table) (op : SelectOp) (ops : List SelectOp) :
    applyOps t (op :: ops) = applyOps (applyOp t op) ops := rfl

theorem applyOps_items (t : Table) (ops : List SelectOp) :
    (applyOps t ops).items = t.items := by
  induction ops generalizing t with
  | nil => rfl
  | cons op ops ih =>
    rw [applyOps_cons, ih, applyOp_items]

theorem applyOps_selected_lt (t : Table) (ops : List SelectOp)
    (h : ∀ i, t.selected = some i → i < max t.items.length 1) :
    ∀ i, (applyOps t ops).selected = some i → i < max t.items.length 1 := by
  induction ops generalizing t with
  | nil => exact h
  | cons op ops ih =>
    rw [applyOps_cons]
    have h1 := applyOp_selected_lt t op h
    rw [← applyOp_items t op] at h1
    have h2 := ih (applyOp t op) h1
    rw [applyOp_items t op] at h2
    exact h2

/-! ## C1 — `set_items` re-validates the selection -/

/-- C1 (amended): replacing the item collection re-validates the selection as
the code does it — if the new collection is empty the selection becomes
`None`; if the new length M is smaller than the OLD ITEM COUNT N (not merely
smaller than the selection), the selection becomes M-1, whether or not the old
selection would still be in range; if M ≥ N with M > 0 and the selection was
`None` (which covers growth from empty) it becomes index 0; if M ≥ N with
M > 0 and something was selected, that selection is preserved. -/
theorem setItems_selection_revalidation (t : Table) (items : List (List RStr)) :
    (items.length = 0 → (setItems t items).selected = none) ∧
    (0 < items.length → items.length < t.items.length →
      (setItems t items).selected = some (items.length - 1)) ∧
    (t.items.length ≤ items.length → 0 < items.length → t.selected = none →
      (setItems t items).selected = some 0) ∧
    (t.items.length ≤ items.length → 0 < items.length → ∀ k, t.selected = some k →
      (setItems t items).selected = some k) := by
  refine ⟨?_, ?_, ?_, ?_⟩
  · intro h0
    rw [setItems_selected, if_pos h0]
  · intro h0 hlt
    rw [setItems_selected, if_neg (by omega), if_pos hlt]
  · intro hge h0 hnone
    rw [setItems_selected, if_neg (by omega), if_neg (by omega), if_pos hnone]
  · intro hge h0 k hk
    rw [setItems_selected, if_neg (by omega), if_neg (by omega),
      if_neg (by simp [hk]), hk]

/-- Witness for C1 at concrete inputs: all four cases of the amended rule. -/
theorem setItems_selection_revalidation_witness :
    ((([] : List (List RStr)).length = 0) ∧
      (setItems ⟨[[[⟨1, 1⟩]]], [], some 0, 10, [], []⟩ []).selected = none) ∧
    (0 < [[[(⟨1, 1⟩ : Grapheme)]]].length ∧
      [[[(⟨1, 1⟩ : Grapheme)]]].length <
        (⟨[[[⟨1, 1⟩]], [[⟨1, 1⟩]]], [], some 1, 10, [], []⟩ : Table).items.length ∧
      (setItems ⟨[[[⟨1, 1⟩]], [[⟨1, 1⟩]]], [], some 1, 10, [], []⟩
        [[[⟨1, 1⟩]]]).selected = some 0) ∧
    ((setItems ⟨[], [], none, 10, [], []⟩ [[[⟨1, 1⟩]]]).selected = some 0) ∧
    ((setItems ⟨[[[⟨1, 1⟩]]], [], some 0, 10, [], []⟩
        [[[⟨1, 1⟩]], [[⟨1, 1⟩]]]).selected = some 0) :=
  ⟨⟨by decide, (setItems_selection_revalidation _ _).1 (by decide)⟩,
   ⟨by decide, by decide,
     by
       have h := (setItems_selection_revalidation
         ⟨[[[⟨1, 1⟩]], [[⟨1, 1⟩]]], [], some 1, 10, [], []⟩ [[[⟨1, 1⟩]]]).2.1
         (by decide) (by decide)
       exact h⟩,
   (setItems_selection_revalidation ⟨[], [], none, 10, [], []⟩ _).2.2.1
     (by decide) (by decide) (by decide),
   (setItems_selection_revalidation ⟨[[[⟨1, 1⟩]]], [], some 0, 10, [], []⟩ _).2.2.2
     (by decide) (by decide) 0 (by decide)⟩

/-- Counterexample to C1 as stated: with 3 items and selection at index 0,
replacing the items by 2 items leaves the selection in range (0 < 2), yet the
code moves it to the new last index 1 instead of preserving it. -/
theorem setItems_selection_preserved_counterexample :
    (⟨[[[⟨1, 1⟩]], [[⟨1, 1⟩]], [[⟨1, 1⟩]]], [], some 0, 10, [], []⟩ : Table).selected
        = some 0 ∧
    (0 : Nat) < [[[(⟨1, 1⟩ : Grapheme)]], [[⟨1, 1⟩]]].length ∧
    (setItems ⟨[[[⟨1, 1⟩]], [[⟨1, 1⟩]], [[⟨1, 1⟩]]], [], some 0, 10, [], []⟩
        [[[⟨1, 1⟩]], [[⟨1, 1⟩]]]).selected = some 1 ∧
    (setItems ⟨[[[⟨1, 1⟩]], [[⟨1, 1⟩]], [[⟨1, 1⟩]]], [], some 0, 10, [], []⟩
        [[[⟨1, 1⟩]], [[⟨1, 1⟩]]]).selected ≠ some 0 := by
  decide

/-! ## C2 — selection bounds under `select_next`/`select_prev` -/

/-- C2 (amended): under any sequence of `select_next(step)`/`select_prev(step)`
calls the selection never panics and stays bounded — when N > 0 any selected
index stays within [0, N-1]; but on an empty collection (N = 0) the two calls
are NOT no-ops: each sets the selection to `Some(0)` rather than leaving it
`None` (still bounded by `max N 1`). -/
theorem select_ops_selection_bounded (t : Table) (ops : List SelectOp) (s : Nat)
    (h : ∀ i, t.selected = some i → i < max t.items.length 1) :
    (∀ i, (applyOps t ops).selected = some i → i < max t.items.length 1) ∧
    (applyOps t ops).items = t.items ∧
    (t.items.length = 0 →
      (selectNext t s).selected = some 0 ∧ (selectPrev t s).selected = some 0) := by
  refine ⟨applyOps_selected_lt t ops h, applyOps_items t ops, ?_⟩
  intro h0
  constructor
  · rw [selectNext]
    cases hsel : t.selected with
    | none => rfl
    | some j =>
      dsimp only
      rw [if_pos (by omega)]
      simp [h0]
  · rw [selectPrev]
    cases hsel : t.selected with
    | none => simp
    | some j =>
      have hj := h j hsel
      simp only [Option.getD_some, Option.some.injEq]
      omega

/-- Witness for C2 at a concrete table and operation sequence. -/
theorem select_ops_selection_bounded_witness :
    (∀ i, (⟨[[[⟨1, 1⟩]], [[⟨1, 1⟩]]], [], some 1, 10, [], []⟩ : Table).selected = some i →
      i < max (⟨[[[⟨1, 1⟩]], [[⟨1, 1⟩]]], [], some 1, 10, [], []⟩ : Table).items.length 1) ∧
    (∀ i, (applyOps ⟨[[[⟨1, 1⟩]], [[⟨1, 1⟩]]], [], some 1, 10, [], []⟩
        [.next 5, .prev 1, .next 1]).selected = some i →
      i < max (⟨[[[⟨1, 1⟩]], [[⟨1, 1⟩]]], [], some 1, 10, [], []⟩ : Table).items.length 1) :=
  ⟨by decide,
   (select_ops_selection_bounded ⟨[[[⟨1, 1⟩]], [[⟨1, 1⟩]]], [], some 1, 10, [], []⟩
     [.next 5, .prev 1, .next 1] 0 (by decide)).1⟩

/-- Counterexample to C2 as stated: on an empty collection, `select_next(1)`
is not a no-op and the selection does not stay `None` — it becomes `Some(0)`. -/
theorem select_next_empty_counterexample :
    (⟨[], [], none, 10, [], []⟩ : Table).items.length = 0 ∧
    (⟨[], [], none, 10, [], []⟩ : Table).selected = none ∧
    (selectNext ⟨[], [], none, 10, [], []⟩ 1).selected = some 0 ∧
    (selectNext ⟨[], [], none, 10, [], []⟩ 1).selected ≠ none := by
  decide

/-! ## C8 — tab activation -/

theorem applyTabOp_tabs (w : Window) (op : TabOp) : (applyTabOp w op).tabs = w.tabs := by
  cases op with
  | byIndex j =>
    simp only [applyTabOp, activateTabByIndex]
    split <;> rfl
  | nextTab => rfl
  | prevTab => rfl

theorem applyTabOp_index_lt (w : Window) (op : TabOp)
    (h1 : 1 ≤ w.tabs.length) (h2 : w.activeTabIndex < w.tabs.length) :
    (applyTabOp w op).activeTabIndex < w.tabs.length := by
  cases op with
  | byIndex j =>
    simp only [applyTabOp, activateTabByIndex]
    rcases Nat.lt_or_ge j w.tabs.length with hj | hj
    · rw [if_pos hj]
      exact hj
    · rw [if_neg (by omega)]
      exact h2
  | nextTab =>
    simp only [applyTabOp, activateNextTab]
    exact Nat.mod_lt _ (by omega)
  | prevTab =>
    simp only [applyTabOp, activatePrevTab]
    exact Nat.mod_lt _ (by omega)

/-- C8: with n ≥ 1 tabs and a valid active index, `activate_next_tab` steps to
(i+1) mod n, `activate_prev_tab` to (i+n-1) mod n, `activate_tab_by_index(j)`
with j ≥ n is a no-op, and after any sequence of these operations the active
index stays valid (0 ≤ index < n). -/
theorem tab_activation_bounds (w : Window) (ops : List TabOp)
    (h1 : 1 ≤ w.tabs.length) (h2 : w.activeTabIndex < w.tabs.length) :
    (activateNextTab w).activeTabIndex = (w.activeTabIndex + 1) % w.tabs.length ∧
    (activatePrevTab w).activeTabIndex =
      (w.activeTabIndex + w.tabs.length - 1) % w.tabs.length ∧
    (∀ j, w.tabs.length ≤ j → activateTabByIndex w j = w) ∧
    (applyTabOps w ops).tabs = w.tabs ∧
    (applyTabOps w ops).activeTabIndex < w.tabs.length := by
  have hcons : ∀ (v : Window) (op : TabOp) (rest : List TabOp),
      applyTabOps v (op :: rest) = applyTabOps (applyTabOp v op) rest := fun _ _ _ => rfl
  refine ⟨rfl, rfl, ?_, ?_, ?_⟩
  · intro j hj
    rw [activateTabByIndex, if_neg (by omega)]
  · clear h2
    induction ops generalizing w with
    | nil => rfl
    | cons op ops ih =>
      rw [hcons, ih (applyTabOp w op) (by rw [applyTabOp_tabs]; exact h1),
        applyTabOp_tabs]
  · induction ops generalizing w with
    | nil => exact h2
    | cons op ops ih =>
      rw [hcons]
      have ht := applyTabOp_tabs w op
      have hi := applyTabOp_index_lt w op h1 h2
      have := ih (applyTabOp w op) (by rw [ht]; exact h1) (by rw [ht]; exact hi)
      rw [ht] at this
      exact this

/-! ## C3 — input routing while a popup is open -/

/-- C3 (amended): while a popup is open and its id resolves, every KEY event is
routed exclusively to that popup; a MOUSE event is routed to the popup exactly
when the cursor is inside the popup's bounds — a left-button press outside the
bounds closes the popup (without reaching the tab), while any other mouse
event outside the bounds falls through to the ordinary area dispatch and can
therefore reach the active tab's widgets underneath. -/
theorem popup_open_input_routing (w : Window) (ev : MouseEvent) (id : String)
    (p : Popup) (h1 : w.openPopupId = some id) (h2 : findPopup w id = some p) :
    keyDispatch w = .popup id ∧
    (p.chunk.containsPoint ev.position = true → mouseDispatch w ev = .popup id) ∧
    (p.chunk.containsPoint ev.position = false → ev.kind = .downLeft →
      mouseDispatch w ev = .popupClose ∧ openPopupIdAfterMouse w ev = none) ∧
    (p.chunk.containsPoint ev.position = false → ev.kind ≠ .downLeft →
      mouseDispatch w ev = areaDispatch w ev) := by
  refine ⟨?_, ?_, ?_, ?_⟩
  · simp [keyDispatch, h1, h2]
  · intro hin
    simp [mouseDispatch, h1, h2, hin]
  · intro hout hdl
    have hd : mouseDispatch w ev = .popupClose := by
      simp [mouseDispatch, h1, h2, hout, hdl]
    exact ⟨hd, by rw [openPopupIdAfterMouse, if_pos hd]⟩
  · intro hout hnd
    simp [mouseDispatch, h1, h2, hout, hnd]

/-- Witness for C3 at a concrete window: key events go to the popup, and a
mouse event inside the popup's bounds goes to the popup. -/
theorem popup_open_input_routing_witness :
    ((⟨["pod"], 0, [⟨"popup_ns", ⟨5, 5, 10, 5⟩⟩], some "popup_ns",
        ⟨0, 0, 20, 2⟩, ⟨0, 2, 20, 20⟩⟩ : Window).openPopupId = some "popup_ns" ∧
      findPopup ⟨["pod"], 0, [⟨"popup_ns", ⟨5, 5, 10, 5⟩⟩], some "popup_ns",
        ⟨0, 0, 20, 2⟩, ⟨0, 2, 20, 20⟩⟩ "popup_ns" = some ⟨"popup_ns", ⟨5, 5, 10, 5⟩⟩) ∧
    keyDispatch ⟨["pod"], 0, [⟨"popup_ns", ⟨5, 5, 10, 5⟩⟩], some "popup_ns",
      ⟨0, 0, 20, 2⟩, ⟨0, 2, 20, 20⟩⟩ = .popup "popup_ns" ∧
    mouseDispatch ⟨["pod"], 0, [⟨"popup_ns", ⟨5, 5, 10, 5⟩⟩], some "popup_ns",
      ⟨0, 0, 20, 2⟩, ⟨0, 2, 20, 20⟩⟩ ⟨.moved, 6, 6⟩ = .popup "popup_ns" :=
  ⟨⟨by decide, by decide⟩,
   (popup_open_input_routing _ ⟨.moved, 6, 6⟩ "popup_ns" ⟨"popup_ns", ⟨5, 5, 10, 5⟩⟩
     (by decide) (by decide)).1,
   (popup_open_input_routing _ ⟨.moved, 6, 6⟩ "popup_ns" ⟨"popup_ns", ⟨5, 5, 10, 5⟩⟩
     (by decide) (by decide)).2.1 (by decide)⟩

/-- Counterexample to C3 as stated: with popup "popup_ns" open, a mouse-move
event at (6,3) — outside the popup's bounds, inside the contents area — is NOT
routed to the popup: `Window::on_mouse_event` falls through and dispatches it
to the active tab's widgets underneath. -/
theorem popup_open_mouse_fallthrough_counterexample :
    (⟨["pod"], 0, [⟨"popup_ns", ⟨5, 5, 10, 5⟩⟩], some "popup_ns",
        ⟨0, 0, 20, 2⟩, ⟨0, 2, 20, 20⟩⟩ : Window).openPopupId = some "popup_ns" ∧
    Rect.containsPoint ⟨5, 5, 10, 5⟩ (MouseEvent.position ⟨.moved, 6, 3⟩) = false ∧
    mouseDispatch ⟨["pod"], 0, [⟨"popup_ns", ⟨5, 5, 10, 5⟩⟩], some "popup_ns",
      ⟨0, 0, 20, 2⟩, ⟨0, 2, 20, 20⟩⟩ ⟨.moved, 6, 3⟩ = .activeTab ∧
    mouseDispatch ⟨["pod"], 0, [⟨"popup_ns", ⟨5, 5, 10, 5⟩⟩], some "popup_ns",
      ⟨0, 0, 20, 2⟩, ⟨0, 2, 20, 20⟩⟩ ⟨.moved, 6, 3⟩ ≠ .popup "popup_ns" := by
  decide

/-! ## C7 — a left click outside an open popup closes it -/

/-- C7: if a popup is open (and resolves) and a left-button press arrives
outside the popup's bounds, the window closes the popup (the open-popup id
becomes `None`), returns `Nop`, and the event is not forwarded to the tab
underneath. -/
theorem popup_outside_click_closes (w : Window) (ev : MouseEvent) (id : String)
    (p : Popup) (h1 : w.openPopupId = some id) (h2 : findPopup w id = some p)
    (h3 : p.chunk.containsPoint ev.position = false) (h4 : ev.kind = .downLeft) :
    mouseDispatch w ev = .popupClose ∧
    openPopupIdAfterMouse w ev = none ∧
    mouseResultOfDispatch (mouseDispatch w ev) = some .nop ∧
    mouseDispatch w ev ≠ .activeTab := by
  have hd : mouseDispatch w ev = .popupClose := by
    simp [mouseDispatch, h1, h2, h3, h4]
  refine ⟨hd, ?_, ?_, ?_⟩
  · rw [openPopupIdAfterMouse, if_pos hd]
  · rw [hd]
    rfl
  · rw [hd]
    intro hc
    exact MouseDispatch.noConfusion hc

/-- Witness for C7: the scenario of §8 — window with open popup "popup_ns",
a `Mouse(Down(Left))` at a position outside the popup's bounds. -/
theorem popup_outside_click_closes_witness :
    ((⟨["pod"], 0, [⟨"popup_ns", ⟨5, 5, 10, 5⟩⟩], some "popup_ns",
        ⟨0, 0, 20, 2⟩, ⟨0, 2, 20, 20⟩⟩ : Window).openPopupId = some "popup_ns" ∧
      Rect.containsPoint ⟨5, 5, 10, 5⟩ (MouseEvent.position ⟨.downLeft, 2, 3⟩) = false) ∧
    openPopupIdAfterMouse ⟨["pod"], 0, [⟨"popup_ns", ⟨5, 5, 10, 5⟩⟩], some "popup_ns",
      ⟨0, 0, 20, 2⟩, ⟨0, 2, 20, 20⟩⟩ ⟨.downLeft, 2, 3⟩ = none :=
  ⟨⟨by decide, by decide⟩,
   (popup_outside_click_closes _ ⟨.downLeft, 2, 3⟩ "popup_ns"
     ⟨"popup_ns", ⟨5, 5, 10, 5⟩⟩ (by decide) (by decide) (by decide) (by decide)).2.1⟩

/-! ## C9 — error payloads become inline error content -/

/-- C9: a `Kube` response carrying an error value replaces the affected
widget's content with formatted error lines — for tables, an "ERROR" header
with one row holding the red-formatted `Debug` text; for list/text widgets,
one red-formatted line per line of the `Debug` text — and the update function
returns normally (it is total), leaving the widget's state well-formed. -/
theorem kube_error_inline_rendering (w : TableWidget) (v : ListWidget)
    (e : KubeError) :
    (updateWidgetItemForTable w (.error e)).header = ["ERROR"] ∧
    (updateWidgetItemForTable w (.error e)).rows = [[errorFormat (errorDebug e)]] ∧
    (updateWidgetItemForVec v (.error e)).items = errorLines e ∧
    errorLines e = e.map fun line => "\x1b[31m[kubetui] " ++ line ++ "\x1b[39m" :=
  ⟨rfl, rfl, rfl, rfl⟩

/-- Witness for C8 at a concrete window and operation sequence. -/
theorem tab_activation_bounds_witness :
    (1 ≤ (["pod", "config", "event"] : List String).length ∧
      (2 : Nat) < (["pod", "config", "event"] : List String).length) ∧
    (applyTabOps ⟨["pod", "config", "event"], 2, [], none, ⟨0, 0, 20, 2⟩, ⟨0, 2, 20, 20⟩⟩
      [.nextTab, .byIndex 7, .prevTab]).activeTabIndex <
      (["pod", "config", "event"] : List String).length :=
  ⟨⟨by decide, by decide⟩,
   (tab_activation_bounds
     ⟨["pod", "config", "event"], 2, [], none, ⟨0, 0, 20, 2⟩, ⟨0, 2, 20, 20⟩⟩
     [.nextTab, .byIndex 7, .prevTab] (by decide) (by decide)).2.2.2.2⟩

end Kubetui
